import Mathlib

/-!
Shallow embedding of the join-pdf core (join-pdf.ts and the CLI decoder).

JavaScript numbers are modelled as rationals (ℚ): every concrete value the
program manipulates here is a small integer or a simple fraction, both exact
in ℚ, and JS `typeof x === "number"` becomes presence of the field.
Array indexing `xs[q]` with a non-natural or out-of-range index yields
`undefined` in JS; it is modelled by `Option` via `qIdx`.  A JS `TypeError`
crash (property access on `undefined`) is modelled as an `Except.error`
carrying the TypeError message, distinct from the `Error` messages the code
throws deliberately.
-/

namespace JoinPdf

/-- A page specifier: a JS number or a string such as "2-5". -/
inductive PageSpec where
  | num (n : ℚ)
  | str (s : String)
deriving DecidableEq, Repr

/-- One instruction of a join list (interface JoinItem, all fields optional). -/
structure JoinItem where
  pdf : Option ℚ := none
  page : Option PageSpec := none
  blank : Bool := false
deriving DecidableEq, Repr

/-- Inventory entry for one loaded source document (interface PdfInfo). -/
structure PdfInfo where
  file : String
  pages : ℕ
deriving DecidableEq, Repr

/-- Usage record of one source document inside a TestResult. -/
structure Usage where
  file : String
  totalPages : ℕ
  usedPages : List (ℚ × ℕ)
deriving DecidableEq, Repr

/-- Diagnostic result of testList (interface TestResult). -/
structure TestResult where
  errors : List String
  usage : List Usage
deriving DecidableEq, Repr

/-- One page of the output document: a fresh blank page, or a copy of
page `pageNum` of source document `pdfIdx`. -/
inductive OutPage where
  | blank
  | copy (pdfIdx : ℚ) (pageNum : ℚ)
deriving DecidableEq, Repr

/-- JS array lookup `xs[q]`: `some` element when `q` is a natural number
index in range, `none` (undefined) otherwise. -/
def qIdx {α : Type} (xs : List α) (q : ℚ) : Option α :=
  if h : q.den = 1 ∧ 0 ≤ q.num ∧ q.num.toNat < xs.length then
    some (xs.get ⟨q.num.toNat, h.2.2⟩)
  else none

/-- Numeric value of a digit string, as `parseInt(d, 10)` computes it. -/
def parseIntDigits (ds : List Char) : ℕ :=
  ds.foldl (fun acc c => 10 * acc + (c.toNat - 48)) 0

/-- JS `String.prototype.trim`, at the character-list level. -/
def jsTrim (cs : List Char) : List Char :=
  ((cs.dropWhile Char.isWhitespace).reverse.dropWhile Char.isWhitespace).reverse

/-- Matcher for the anchored regex `^(\d+)\s*-\s*(\d+)$` of parsePages:
returns the two captured digit groups on success.  (The character classes
`\d`, `\s` and the literal hyphen are pairwise disjoint, so the greedy
left-to-right scan is equivalent to the regex with backtracking.) -/
def matchRangeRe (cs : List Char) : Option (List Char × List Char) :=
  let t1 := cs.span Char.isDigit
  if t1.1 = [] then none
  else
    match (t1.2.dropWhile Char.isWhitespace) with
    | [] => none
    | c :: r3 =>
      if c = '-' then
        let t2 := (r3.dropWhile Char.isWhitespace).span Char.isDigit
        if t2.1 = [] ∨ t2.2 ≠ [] then none else some (t1.1, t2.1)
      else none

/-- Error message `Invalid page range format: "<page>"`. -/
def rangeFormatErr (s : String) : String :=
  "Invalid page range format: \"" ++ s ++ "\""

/-- Error message `Invalid range: start > end (<page>)`. -/
def rangeOrderErr (s : String) : String :=
  "Invalid range: start > end (" ++ s ++ ")"

/-- `parsePages`: a number becomes the singleton list; a string is trimmed
and matched against `^(\d+)\s*-\s*(\d+)$`, yielding the inclusive ascending
range, with `start > end` rejected. -/
def parsePages : PageSpec → Except String (List ℚ)
  | .num n => .ok [n]
  | .str s =>
    match matchRangeRe (jsTrim s.toList) with
    | none => .error (rangeFormatErr s)
    | some (d1, d2) =>
      if parseIntDigits d1 > parseIntDigits d2 then .error (rangeOrderErr s)
      else .ok ((List.range' (parseIntDigits d1)
          (parseIntDigits d2 + 1 - parseIntDigits d1)).map (fun p => (p : ℚ)))

/-- Decimal rendering of a JS number (exact for the integers the claims
exercise; a non-integral rational is rendered as num/den). -/
def qStr (q : ℚ) : String :=
  if q.den = 1 then toString q.num else toString q.num ++ "/" ++ toString q.den

/-- Best-effort `JSON.stringify` of a JoinItem, used only inside one error
message the claims never inspect. -/
def stringifyItem (item : JoinItem) : String :=
  "\x7b" ++ String.intercalate ","
    ((match item.pdf with
      | some p => ["\"pdf\":" ++ qStr p]
      | none => []) ++
     (match item.page with
      | some (.num n) => ["\"page\":" ++ qStr n]
      | some (.str s) => ["\"page\":\"" ++ s ++ "\""]
      | none => []) ++
     (if item.blank then ["\"blank\":true"] else [])) ++ "\x7d"

/-- Message of the `joinList requests page ... from pdf[...] which has only
... pages` error thrown by `join`. -/
def joinPageErr (p pn : ℚ) (total : ℕ) : String :=
  "joinList requests page " ++ qStr pn ++ " from pdf[" ++ qStr p ++
    "] which has only " ++ toString total ++ " pages"

/-- Message of the TypeError raised when `loadedPdfs[item.pdf]` is
undefined and `.getPageCount()` is called on it. -/
def getPageCountTypeErr : String :=
  "TypeError: Cannot read properties of undefined (reading \x27getPageCount\x27)"

/-- Message of the `Invalid joinList entry` error thrown by `join`. -/
def invalidEntryErr : String :=
  "Invalid joinList entry: missing or invalid \x27pdf\x27 index"

/-- The inner page-copy loop of `join`: bounds-check each resolved page
number in order, appending a copy on success and aborting on the first
out-of-range page. -/
def copyLoop (p : ℚ) (total : ℕ) : List ℚ → List OutPage → Except String (List OutPage)
  | [], acc => .ok acc
  | pn :: rest, acc =>
    if pn < 1 ∨ pn > (total : ℚ) then .error (joinPageErr p pn total)
    else copyLoop p total rest (acc ++ [.copy p pn])

/-- Main loop of `join` over the join list, threading the output pages. -/
def joinGo (counts : List ℕ) : List JoinItem → List OutPage → Except String (List OutPage)
  | [], acc => .ok acc
  | item :: rest, acc =>
    if item.blank then joinGo counts rest (acc ++ [.blank])
    else
      match item.pdf with
      | none => .error invalidEntryErr
      | some p =>
        if p < 0 then .error invalidEntryErr
        else
          match item.page with
          | none => .error ("Missing \x27page\x27 in joinList entry: " ++ stringifyItem item)
          | some ps =>
            match qIdx counts p with
            | none => .error getPageCountTypeErr
            | some total =>
              match parsePages ps with
              | .error e => .error e
              | .ok pages =>
                match copyLoop p total pages acc with
                | .error e => .error e
                | .ok acc2 => joinGo counts rest acc2

/-- The `join` function (assembler), over already-loaded sources given by
their page counts: on success returns the output document's page sequence. -/
def join (counts : List ℕ) (joinList : List JoinItem) : Except String (List OutPage) :=
  joinGo counts joinList []

/-- Error message `Entry #i: invalid or missing 'pdf' index` of testList. -/
def invalidPdfMsg (i : ℕ) : String :=
  "Entry #" ++ toString i ++ ": invalid or missing \x27pdf\x27 index"

/-- Error message `Entry #i: missing 'page' value` of testList. -/
def missingPageMsg (i : ℕ) : String :=
  "Entry #" ++ toString i ++ ": missing \x27page\x27 value"

/-- Error message `Entry #i: <parser message>` of testList. -/
def parseFailMsg (i : ℕ) (msg : String) : String :=
  "Entry #" ++ toString i ++ ": " ++ msg

/-- Error message `Entry #i: pdf[p] has no page pn (max total)` of testList. -/
def noPageMsg (i : ℕ) (p pn : ℚ) (total : ℕ) : String :=
  "Entry #" ++ toString i ++ ": pdf[" ++ qStr p ++ "] has no page " ++ qStr pn ++
    " (max " ++ toString total ++ ")"

/-- Message of the TypeError raised when `result.usage[pdfIndex]` is
undefined and `.usedPages` is read from it (never actually reachable). -/
def usedPagesTypeErr : String :=
  "TypeError: Cannot read properties of undefined (reading \x27usedPages\x27)"

/-- `usageMap[pageNum] = (usageMap[pageNum] || 0) + 1` on an
insertion-ordered map, as a JS object behaves. -/
def bumpCount (pn : ℚ) : List (ℚ × ℕ) → List (ℚ × ℕ)
  | [] => [(pn, 1)]
  | (k, v) :: rest => if k = pn then (k, v + 1) :: rest else (k, v) :: bumpCount pn rest

/-- Occurrence count stored for page `pn` (0 when unseen). -/
def lookupCount (pn : ℚ) : List (ℚ × ℕ) → ℕ
  | [] => 0
  | (k, v) :: rest => if k = pn then v else lookupCount pn rest

/-- `result.usage[p].usedPages[pn] += 1`: `none` models the TypeError of an
undefined `result.usage[p]`. -/
def updateUsageAt (us : List Usage) (p pn : ℚ) : Option (List Usage) :=
  if h : p.den = 1 ∧ 0 ≤ p.num ∧ p.num.toNat < us.length then
    some (us.set p.num.toNat
      (let u := us.get ⟨p.num.toNat, h.2.2⟩
       { u with usedPages := bumpCount pn u.usedPages }))
  else none

/-- The per-page loop of testList entry `i`: out-of-range page numbers each
append one error and processing continues; in-range ones bump the usage
histogram of document `p`. -/
def pagesLoop (i : ℕ) (p : ℚ) (total : ℕ) : List ℚ → TestResult → Except String TestResult
  | [], st => .ok st
  | pn :: rest, st =>
    if pn < 1 ∨ pn > (total : ℚ) then
      pagesLoop i p total rest ⟨st.errors ++ [noPageMsg i p pn total], st.usage⟩
    else
      match updateUsageAt st.usage p pn with
      | none => .error usedPagesTypeErr
      | some us => pagesLoop i p total rest ⟨st.errors, us⟩

/-- Processing of one join-list entry by testList (the body of the forEach). -/
def testEntry (info : List PdfInfo) (i : ℕ) (item : JoinItem) (st : TestResult) :
    Except String TestResult :=
  if item.blank then .ok st
  else
    match item.pdf with
    | none => .ok ⟨st.errors ++ [invalidPdfMsg i], st.usage⟩
    | some p =>
      if p < 0 then .ok ⟨st.errors ++ [invalidPdfMsg i], st.usage⟩
      else
        match item.page with
        | none => .ok ⟨st.errors ++ [missingPageMsg i], st.usage⟩
        | some ps =>
          match parsePages ps with
          | .error msg => .ok ⟨st.errors ++ [parseFailMsg i msg], st.usage⟩
          | .ok pages =>
            pagesLoop i p ((qIdx info p).map PdfInfo.pages |>.getD 0) pages st

/-- forEach of testList with the running index. -/
def testListGo (info : List PdfInfo) : ℕ → List JoinItem → TestResult →
    Except String TestResult
  | _, [], st => .ok st
  | i, item :: rest, st =>
    match testEntry info i item st with
    | .error e => .error e
    | .ok st2 => testListGo info (i + 1) rest st2

/-- Fresh TestResult built at the start of each testList run. -/
def testInit (info : List PdfInfo) : TestResult :=
  ⟨[], info.map (fun pi => ⟨pi.file, pi.pages, []⟩)⟩

/-- `testList` (the validator), over an already-built inventory. -/
def testList (info : List PdfInfo) (joinList : List JoinItem) :
    Except String TestResult :=
  testListGo info 0 joinList (testInit info)

/-- Matcher for the anchored regex `^(\d+):([\d]+(?:-[\d]+)?)$` of
parsePagesArg: returns the pdf-index digit group and the page part (digits,
optionally digits-hyphen-digits).  Greedy scanning is again equivalent since
`\d`, `:` and `-` are disjoint. -/
def matchTokenRe (cs : List Char) : Option (List Char × List Char) :=
  let t1 := cs.span Char.isDigit
  if t1.1 = [] then none
  else
    match t1.2 with
    | [] => none
    | c :: r2 =>
      if c = ':' then
        let t2 := r2.span Char.isDigit
        if t2.1 = [] then none
        else
          match t2.2 with
          | [] => some (t1.1, t2.1)
          | c2 :: r4 =>
            if c2 = '-' then
              let t3 := r4.span Char.isDigit
              if t3.1 = [] ∨ t3.2 ≠ [] then none
              else some (t1.1, t2.1 ++ '-' :: t3.1)
            else none
      else none

/-- Message of the `Invalid --pages token ...` error of parsePagesArg. -/
def invalidTokenMsg (token : String) : String :=
  "Invalid --pages token \"" ++ token ++
    "\". Use format \"pdfIndex:page\" or \"pdfIndex:start-end\" or \"blank\"."

/-- Decoding of one (already trimmed) token of the --pages argument. -/
def decodeToken (token : String) : Except String JoinItem :=
  if token.toList = [] ∨ token.toList.map Char.toLower = "blank".toList then
    .ok ⟨none, none, true⟩
  else
    match matchTokenRe token.toList with
    | none => .error (invalidTokenMsg token)
    | some (d1, d2) =>
      .ok ⟨some (parseIntDigits d1),
        some (if d2.contains '-' then .str (String.mk d2)
              else .num (parseIntDigits d2)), false⟩

/-- Left-to-right decoding loop of parsePagesArg over the split tokens. -/
def tokensGo : List String → Except String (List JoinItem)
  | [] => .ok []
  | t :: rest =>
    match decodeToken t with
    | .error e => .error e
    | .ok item =>
      match tokensGo rest with
      | .error e => .error e
      | .ok items => .ok (item :: items)

/-- `parsePagesArg`: split the --pages string on commas, trim each token and
decode them in order. -/
def parsePagesArg (arg : String) : Except String (List JoinItem) :=
  tokensGo ((arg.splitOn ",").map String.trim)

/-- Does an item pass every check the assembler applies to it (so that
`join` copies its pages rather than aborting)? -/
def itemChecks (counts : List ℕ) (item : JoinItem) : Bool :=
  item.blank ||
    match item.pdf, item.page with
    | some p, some ps =>
      decide (0 ≤ p) &&
        (match qIdx counts p with
         | none => false
         | some total =>
           match parsePages ps with
           | .error _ => false
           | .ok pages => pages.all (fun pn => decide (1 ≤ pn) && decide (pn ≤ (total : ℚ))))
    | _, _ => false

/-- The output pages one passing item contributes: one blank page for a
blank marker, one copied page per resolved page number otherwise. -/
def itemOut (item : JoinItem) : List OutPage :=
  if item.blank then [.blank]
  else
    match item.pdf, item.page with
    | some p, some ps =>
      match parsePages ps with
      | .error _ => []
      | .ok pages => pages.map (.copy p)
    | _, _ => []

/-- Usage count recorded for page `pn` of document `d` in a usage list. -/
def usageCount : List Usage → ℕ → ℚ → ℕ
  | [], _, _ => 0
  | u :: _, 0, pn => lookupCount pn u.usedPages
  | _ :: rest, d + 1, pn => usageCount rest d pn

/-!  General helper lemmas. -/

theorem head?_mem {α : Type} : ∀ (l : List α) (c : α), l.head? = some c → c ∈ l
  | [], _, h => by simp at h
  | a :: _, c, h => by
    simp at h
    simp [h]

theorem dropWhile_eq_self_of_head {α : Type} (p : α → Bool) :
    ∀ (l : List α), (∀ c, l.head? = some c → p c = false) → l.dropWhile p = l
  | [], _ => rfl
  | c :: rest, h => by simp [List.dropWhile_cons, h c rfl]

theorem span_all_append {α : Type} (p : α → Bool) :
    ∀ (d r : List α), (∀ c ∈ d, p c = true) → (∀ c, r.head? = some c → p c = false) →
      (d ++ r).span p = (d, r)
  | [], r, _, hr => by
    rw [List.span_eq_take_drop, List.nil_append, dropWhile_eq_self_of_head p r hr]
    cases r with
    | nil => simp
    | cons a rest => simp [List.takeWhile_cons, hr a rfl]
  | a :: d, r, hd, hr => by
    have ih := span_all_append p d r (fun c hc => hd c (by simp [hc])) hr
    rw [List.span_eq_take_drop] at ih ⊢
    simp only [List.cons_append, List.takeWhile_cons, List.dropWhile_cons,
      hd a (by simp), if_true]
    simp only [Prod.mk.injEq] at ih
    simp [ih.1, ih.2]

theorem digit_not_ws {c : Char} (h : c.isDigit = true) : c.isWhitespace = false := by
  cases hw : c.isWhitespace with
  | false => rfl
  | true =>
    exfalso
    simp [Char.isWhitespace] at hw
    rcases hw with ((h1 | h1) | h1) | h1 <;> subst h1 <;> exact absurd h (by decide)

theorem jsTrim_eq_self (l : List Char) (h : ∀ c ∈ l, c.isWhitespace = false) :
    jsTrim l = l := by
  unfold jsTrim
  have h1 : l.dropWhile Char.isWhitespace = l :=
    dropWhile_eq_self_of_head _ l (fun c hc => h c (head?_mem _ _ hc))
  rw [h1]
  have h2 : l.reverse.dropWhile Char.isWhitespace = l.reverse :=
    dropWhile_eq_self_of_head _ l.reverse
      (fun c hc => h c (List.mem_reverse.mp (head?_mem _ _ hc)))
  rw [h2, List.reverse_reverse]

theorem matchRangeRe_digits (d1 d2 : List Char) (h1 : d1 ≠ []) (h2 : d2 ≠ [])
    (hd1 : ∀ c ∈ d1, c.isDigit = true) (hd2 : ∀ c ∈ d2, c.isDigit = true) :
    matchRangeRe (d1 ++ '-' :: d2) = some (d1, d2) := by
  have hspan1 : (d1 ++ '-' :: d2).span Char.isDigit = (d1, '-' :: d2) :=
    span_all_append _ d1 ('-' :: d2) hd1 (by intro c hc; simp at hc; subst hc; decide)
  have hdrop1 : ('-' :: d2).dropWhile Char.isWhitespace = '-' :: d2 := by
    apply dropWhile_eq_self_of_head
    intro c hc
    simp at hc
    subst hc
    decide
  have hdrop2 : d2.dropWhile Char.isWhitespace = d2 :=
    dropWhile_eq_self_of_head _ d2
      (fun c hc => digit_not_ws (hd2 c (head?_mem _ _ hc)))
  have hspan2 : d2.span Char.isDigit = (d2, []) := by
    have := span_all_append Char.isDigit d2 [] hd2 (by intro c hc; simp at hc)
    simpa using this
  unfold matchRangeRe
  rw [hspan1]
  simp only [h1, if_false]
  rw [hdrop1]
  simp only [if_true]
  rw [hdrop2, hspan2]
  simp [h2]

theorem matchTokenRe_single (d1 d2 : List Char) (h1 : d1 ≠ []) (h2 : d2 ≠ [])
    (hd1 : ∀ c ∈ d1, c.isDigit = true) (hd2 : ∀ c ∈ d2, c.isDigit = true) :
    matchTokenRe (d1 ++ ':' :: d2) = some (d1, d2) := by
  have hspan1 : (d1 ++ ':' :: d2).span Char.isDigit = (d1, ':' :: d2) :=
    span_all_append _ d1 (':' :: d2) hd1 (by intro c hc; simp at hc; subst hc; decide)
  have hspan2 : d2.span Char.isDigit = (d2, []) := by
    have := span_all_append Char.isDigit d2 [] hd2 (by intro c hc; simp at hc)
    simpa using this
  unfold matchTokenRe
  rw [hspan1]
  simp only [h1, if_false]
  simp only [if_true]
  rw [hspan2]
  simp [h2]

theorem matchTokenRe_range (d1 d2 d3 : List Char) (h1 : d1 ≠ []) (h2 : d2 ≠ [])
    (h3 : d3 ≠ []) (hd1 : ∀ c ∈ d1, c.isDigit = true) (hd2 : ∀ c ∈ d2, c.isDigit = true)
    (hd3 : ∀ c ∈ d3, c.isDigit = true) :
    matchTokenRe (d1 ++ ':' :: (d2 ++ '-' :: d3)) = some (d1, d2 ++ '-' :: d3) := by
  have hspan1 : (d1 ++ ':' :: (d2 ++ '-' :: d3)).span Char.isDigit
      = (d1, ':' :: (d2 ++ '-' :: d3)) :=
    span_all_append _ d1 _ hd1 (by intro c hc; simp at hc; subst hc; decide)
  have hspan2 : (d2 ++ '-' :: d3).span Char.isDigit = (d2, '-' :: d3) :=
    span_all_append _ d2 _ hd2 (by intro c hc; simp at hc; subst hc; decide)
  have hspan3 : d3.span Char.isDigit = (d3, []) := by
    have := span_all_append Char.isDigit d3 [] hd3 (by intro c hc; simp at hc)
    simpa using this
  unfold matchTokenRe
  rw [hspan1]
  simp only [h1, if_false]
  simp only [if_true]
  rw [hspan2]
  simp only [h2, if_false]
  simp only [if_true]
  rw [hspan3]
  simp [h3]

theorem lookupCount_bumpCount (pn : ℚ) :
    ∀ m : List (ℚ × ℕ), lookupCount pn (bumpCount pn m) = lookupCount pn m + 1
  | [] => by simp [bumpCount, lookupCount]
  | (k, v) :: rest => by
    by_cases hk : k = pn
    · simp [bumpCount, lookupCount, hk]
    · simp [bumpCount, lookupCount, hk, lookupCount_bumpCount pn rest]

theorem usageCount_set_bump :
    ∀ (us : List Usage) (d : ℕ) (pn : ℚ) (h : d < us.length),
      usageCount (us.set d
        { us.get ⟨d, h⟩ with usedPages := bumpCount pn (us.get ⟨d, h⟩).usedPages }) d pn
      = usageCount us d pn + 1
  | [], d, _, h => by simp at h
  | u :: rest, 0, pn, _ => by
    simp [usageCount, List.set, lookupCount_bumpCount]
  | u :: rest, d + 1, pn, h => by
    simp only [List.set, usageCount, List.get]
    exact usageCount_set_bump rest d pn (by simpa using h)

theorem pagesLoop_total_zero (i : ℕ) (p : ℚ) :
    ∀ (pages : List ℚ) (st : TestResult),
      pagesLoop i p 0 pages st
        = .ok ⟨st.errors ++ pages.map (fun pn => noPageMsg i p pn 0), st.usage⟩ := by
  intro pages
  induction pages with
  | nil => intro st; simp [pagesLoop]
  | cons pn rest ih =>
    intro st
    have hcond : pn < 1 ∨ pn > ((0 : ℕ) : ℚ) := by
      rcases lt_or_le pn 1 with h | h
      · exact Or.inl h
      · right
        push_cast
        linarith
    simp only [pagesLoop]
    rw [if_pos hcond, ih]
    simp

theorem copyLoop_ok (p : ℚ) (total : ℕ) :
    ∀ (pages : List ℚ) (acc : List OutPage),
      (∀ pn ∈ pages, 1 ≤ pn ∧ pn ≤ (total : ℚ)) →
      copyLoop p total pages acc = .ok (acc ++ pages.map (.copy p)) := by
  intro pages
  induction pages with
  | nil => intro acc _; simp [copyLoop]
  | cons pn rest ih =>
    intro acc h
    have hpn := h pn (by simp)
    have hcond : ¬(pn < 1 ∨ pn > (total : ℚ)) := by
      push_neg
      exact ⟨hpn.1, hpn.2⟩
    rw [copyLoop, if_neg hcond, ih _ (fun q hq => h q (by simp [hq]))]
    simp

theorem copyLoop_err (p : ℚ) (total : ℕ) (bad : ℚ) (pgs2 : List ℚ)
    (hbad : bad < 1 ∨ bad > (total : ℚ)) :
    ∀ (pgs1 : List ℚ) (acc : List OutPage),
      (∀ pn ∈ pgs1, 1 ≤ pn ∧ pn ≤ (total : ℚ)) →
      copyLoop p total (pgs1 ++ bad :: pgs2) acc = .error (joinPageErr p bad total) := by
  intro pgs1
  induction pgs1 with
  | nil => intro acc _; rw [List.nil_append, copyLoop, if_pos hbad]
  | cons pn rest ih =>
    intro acc h
    have hpn := h pn (by simp)
    have hcond : ¬(pn < 1 ∨ pn > (total : ℚ)) := by
      push_neg
      exact ⟨hpn.1, hpn.2⟩
    rw [List.cons_append, copyLoop, if_neg hcond]
    exact ih _ (fun q hq => h q (by simp [hq]))

theorem itemChecks_elim (counts : List ℕ) (item : JoinItem)
    (hchk : itemChecks counts item = true) (hb : item.blank = false) :
    ∃ p ps total pages, item.pdf = some p ∧ item.page = some ps ∧ 0 ≤ p ∧
      qIdx counts p = some total ∧ parsePages ps = .ok pages ∧
      (∀ pn ∈ pages, 1 ≤ pn ∧ pn ≤ (total : ℚ)) := by
  unfold itemChecks at hchk
  rw [hb] at hchk
  simp only [Bool.false_or] at hchk
  cases hpdf : item.pdf with
  | none => rw [hpdf] at hchk; cases hpg : item.page <;> rw [hpg] at hchk <;> simp at hchk
  | some p =>
    rw [hpdf] at hchk
    cases hpg : item.page with
    | none => rw [hpg] at hchk; simp at hchk
    | some ps =>
      rw [hpg] at hchk
      simp only [Bool.and_eq_true, decide_eq_true_eq] at hchk
      obtain ⟨h0, hrest⟩ := hchk
      cases hq : qIdx counts p with
      | none => rw [hq] at hrest; simp at hrest
      | some total =>
        rw [hq] at hrest
        cases hps : parsePages ps with
        | error e => rw [hps] at hrest; simp at hrest
        | ok pages =>
          rw [hps] at hrest
          refine ⟨p, ps, total, pages, rfl, rfl, h0, hq, hps, ?_⟩
          intro pn hpn
          have := (List.all_eq_true.mp hrest) pn hpn
          simpa using this

theorem itemOut_of_checks (item : JoinItem) (p : ℚ) (ps : PageSpec)
    (pages : List ℚ) (hb : item.blank = false) (hpdf : item.pdf = some p)
    (hpg : item.page = some ps) (hps : parsePages ps = .ok pages) :
    itemOut item = pages.map (.copy p) := by
  unfold itemOut
  rw [hb]
  simp only [Bool.false_eq_true, if_false, hpdf, hpg, hps]

theorem joinGo_append (counts : List ℕ) :
    ∀ (jl1 rest : List JoinItem) (acc : List OutPage),
      (∀ it ∈ jl1, itemChecks counts it = true) →
      joinGo counts (jl1 ++ rest) acc = joinGo counts rest (acc ++ jl1.flatMap itemOut) := by
  intro jl1
  induction jl1 with
  | nil => intro rest acc _; simp
  | cons item jl1 ih =>
    intro rest acc h
    have hitem := h item (by simp)
    have hrest : ∀ it ∈ jl1, itemChecks counts it = true := fun it hit => h it (by simp [hit])
    by_cases hb : item.blank = true
    · rw [List.cons_append, joinGo, if_pos hb, ih rest _ hrest]
      have : itemOut item = [.blank] := by unfold itemOut; rw [hb]; simp
      simp [this]
    · have hbf : item.blank = false := by simpa using hb
      obtain ⟨p, ps, total, pages, hpdf, hpg, h0, hq, hps, hall⟩ :=
        itemChecks_elim counts item hitem hbf
      rw [List.cons_append, joinGo, if_neg hb]
      simp only [hpdf, if_neg (not_lt.mpr h0), hpg, hq, hps]
      rw [copyLoop_ok p total pages acc hall]
      simp only []
      rw [ih rest _ hrest]
      simp [List.flatMap_cons, itemOut_of_checks item p ps pages hbf hpdf hpg hps,
        List.append_assoc]

/-!  Claim theorems. -/

/-- Claim C1: for every list of loaded source documents and every join list
whose entries all pass the assembler's checks, `join` returns an output
document containing exactly one page per blank marker and one page per
resolved page number of each page-reference entry, appended strictly in
left-to-right join-list order (duplicates preserved, no reordering or
deduplication): the output is precisely the concatenation, in join-list
order, of each item's contribution `itemOut`. -/
theorem join_preserves_order (counts : List ℕ) (jl : List JoinItem)
    (h : ∀ it ∈ jl, itemChecks counts it = true) :
    join counts jl = .ok (jl.flatMap itemOut) := by
  have h2 := joinGo_append counts jl [] [] h
  simpa [join, joinGo] using h2

/-- Witness for C1: the spec's concrete example — sources with page counts
[12, 7] and join list [{pdf:0,page:1},{blank},{pdf:1,page:"2-4"},{pdf:0,page:5}]
produce exactly 6 pages in that order. -/
theorem join_preserves_order_witness :
    join [12, 7]
      [⟨some 0, some (.num 1), false⟩, ⟨none, none, true⟩,
       ⟨some 1, some (.str "2-4"), false⟩, ⟨some 0, some (.num 5), false⟩]
      = .ok [.copy 0 1, .blank, .copy 1 2, .copy 1 3, .copy 1 4, .copy 0 5] :=
  (join_preserves_order [12, 7]
    [⟨some 0, some (.num 1), false⟩, ⟨none, none, true⟩,
     ⟨some 1, some (.str "2-4"), false⟩, ⟨some 0, some (.num 5), false⟩]
    (by decide)).trans rfl

/-- Claim C9: `parsePages` on any numeric input n — zero, negative and
non-integer numbers included — returns `[n]` and never fails: no positivity
or integrality check is applied to a single-number page spec. -/
theorem parsePages_num_total (n : ℚ) : parsePages (.num n) = .ok [n] := rfl

/-- Claim C10: an item whose `blank` field is true is treated as a blank
marker by both the validator and the assembler regardless of any `pdf` and
`page` fields it also carries: testList records no error and no usage for
it, and `join` appends exactly one blank page for it. -/
theorem blank_takes_precedence (pdf : Option ℚ) (page : Option PageSpec)
    (info : List PdfInfo) (i : ℕ) (st : TestResult) (counts : List ℕ)
    (rest : List JoinItem) (acc : List OutPage) :
    testEntry info i ⟨pdf, page, true⟩ st = .ok st ∧
    joinGo counts (⟨pdf, page, true⟩ :: rest) acc = joinGo counts rest (acc ++ [.blank]) :=
  ⟨rfl, rfl⟩

/-- Counterexample to claim C2 as stated: a non-integer numeric `pdf`
(here 1/2, the model of the JS number 0.5) does NOT trigger
"Entry #0: invalid or missing 'pdf' index" — the code only checks
`typeof item.pdf !== "number" || item.pdf < 0`, which 0.5 passes; the entry
instead reaches the bounds check with total = 0 and produces an
out-of-range page error. -/
theorem testList_noninteger_pdf_cx :
    testList [⟨"a.pdf", 3⟩] [⟨some (mkRat 1 2), some (.num 1), false⟩]
      = .ok ⟨[noPageMsg 0 (mkRat 1 2) 1 0], [⟨"a.pdf", 3, []⟩]⟩ ∧
    noPageMsg 0 (mkRat 1 2) 1 0 ≠ invalidPdfMsg 0 := by
  constructor
  · rfl
  · decide

/-- Claim C2 amended: the validator appends exactly
"Entry #i: invalid or missing 'pdf' index" and skips the entry (no usage
recorded) when the non-blank entry's `pdf` field is missing (not a number)
or negative; a non-integer numeric `pdf` passes this check and instead
yields out-of-range page errors against a document treated as having 0
pages. -/
theorem testEntry_invalid_pdf (info : List PdfInfo) (i : ℕ) (item : JoinItem)
    (st : TestResult) (hb : item.blank = false)
    (h : item.pdf = none ∨ ∃ p, item.pdf = some p ∧ p < 0) :
    testEntry info i item st = .ok ⟨st.errors ++ [invalidPdfMsg i], st.usage⟩ := by
  unfold testEntry
  rw [hb]
  rcases h with h | ⟨p, hp, hneg⟩
  · rw [h]
    simp
  · rw [hp]
    simp [hneg]

/-- Witness for the amended C2: a concrete entry with a missing `pdf` and a
concrete entry with a negative `pdf` both yield exactly the invalid-pdf
error. -/
theorem testEntry_invalid_pdf_witness :
    testEntry [⟨"a.pdf", 3⟩] 0 ⟨none, some (.num 1), false⟩ ⟨[], [⟨"a.pdf", 3, []⟩]⟩
      = .ok ⟨[invalidPdfMsg 0], [⟨"a.pdf", 3, []⟩]⟩ ∧
    testEntry [⟨"a.pdf", 3⟩] 1 ⟨some (-2), some (.num 1), false⟩ ⟨[], [⟨"a.pdf", 3, []⟩]⟩
      = .ok ⟨[invalidPdfMsg 1], [⟨"a.pdf", 3, []⟩]⟩ :=
  ⟨testEntry_invalid_pdf [⟨"a.pdf", 3⟩] 0 ⟨none, some (.num 1), false⟩
      ⟨[], [⟨"a.pdf", 3, []⟩]⟩ rfl (Or.inl rfl),
   testEntry_invalid_pdf [⟨"a.pdf", 3⟩] 1 ⟨some (-2), some (.num 1), false⟩
      ⟨[], [⟨"a.pdf", 3, []⟩]⟩ rfl (Or.inr ⟨-2, rfl, by norm_num⟩)⟩

/-- Claim C6: the validator never raises for a malformed entry — when an
entry's page spec fails to parse, testList appends exactly one error
"Entry #i: <parser message>", records no usage for the entry, and continues
processing all remaining entries. -/
theorem testList_parse_failure_continues (info : List PdfInfo) (i : ℕ)
    (item : JoinItem) (rest : List JoinItem) (st : TestResult) (p : ℚ)
    (ps : PageSpec) (msg : String) (hb : item.blank = false)
    (hpdf : item.pdf = some p) (hpos : ¬p < 0) (hpg : item.page = some ps)
    (hps : parsePages ps = .error msg) :
    testListGo info i (item :: rest) st
      = testListGo info (i + 1) rest ⟨st.errors ++ [parseFailMsg i msg], st.usage⟩ := by
  rw [testListGo]
  have hentry : testEntry info i item st = .ok ⟨st.errors ++ [parseFailMsg i msg], st.usage⟩ := by
    unfold testEntry
    rw [hb]
    simp only [Bool.false_eq_true, if_false, hpdf, if_neg hpos, hpg, hps]
  rw [hentry]

/-- Witness for C6: a concrete malformed range spec "bad" on entry 0 is
reported and entry 1 is still processed. -/
theorem testList_parse_failure_continues_witness :
    testListGo [⟨"a.pdf", 3⟩] 0
      [⟨some 0, some (.str "bad"), false⟩, ⟨some 0, some (.num 2), false⟩]
      ⟨[], [⟨"a.pdf", 3, []⟩]⟩
      = testListGo [⟨"a.pdf", 3⟩] 1 [⟨some 0, some (.num 2), false⟩]
        ⟨[parseFailMsg 0 (rangeFormatErr "bad")], [⟨"a.pdf", 3, []⟩]⟩ :=
  testList_parse_failure_continues [⟨"a.pdf", 3⟩] 0 ⟨some 0, some (.str "bad"), false⟩
    [⟨some 0, some (.num 2), false⟩] ⟨[], [⟨"a.pdf", 3, []⟩]⟩ 0 (.str "bad")
    (rangeFormatErr "bad") rfl rfl (by norm_num) rfl rfl

/-- Claim C7: a page-reference entry whose non-negative integer `pdf` index
is at least the number of sources is treated as referring to a document with
0 pages: every resolved page number fails the bounds check and produces one
out-of-range error, and the validator returns normally (no crash, the usage
array is never accessed at the out-of-range index and is unchanged). -/
theorem testEntry_pdf_index_out_of_range (info : List PdfInfo) (i d : ℕ)
    (ps : PageSpec) (pages : List ℚ) (st : TestResult)
    (hd : info.length ≤ d) (hps : parsePages ps = .ok pages) :
    testEntry info i ⟨some (d : ℚ), some ps, false⟩ st
      = .ok ⟨st.errors ++ pages.map (fun pn => noPageMsg i (d : ℚ) pn 0), st.usage⟩ := by
  have hq : qIdx info ((d : ℕ) : ℚ) = none := by
    unfold qIdx
    rw [dif_neg]
    intro h2
    have := h2.2.2
    rw [Rat.num_natCast, Int.toNat_natCast] at this
    omega
  unfold testEntry
  simp only [if_neg (not_lt.mpr (by positivity : (0:ℚ) ≤ (d : ℚ)))]
  rw [hps]
  simp only [hq, Option.map_none, Option.getD_none]
  exact pagesLoop_total_zero i (d : ℚ) pages st

/-- Witness for C7: with one 3-page source, the entry {pdf:5, page:"1-2"}
produces exactly the two out-of-range errors with max 0 and leaves the usage
records untouched. -/
theorem testEntry_pdf_index_out_of_range_witness :
    testEntry [⟨"a.pdf", 3⟩] 0 ⟨some ((5 : ℕ) : ℚ), some (.str "1-2"), false⟩
      ⟨[], [⟨"a.pdf", 3, []⟩]⟩
      = .ok ⟨[noPageMsg 0 ((5 : ℕ) : ℚ) 1 0, noPageMsg 0 ((5 : ℕ) : ℚ) 2 0],
          [⟨"a.pdf", 3, []⟩]⟩ :=
  (testEntry_pdf_index_out_of_range [⟨"a.pdf", 3⟩] 0 5 (.str "1-2") [1, 2]
    ⟨[], [⟨"a.pdf", 3, []⟩]⟩ (by norm_num) rfl).trans rfl

/-- Claim C3: when `join` encounters a resolved page number outside
[1, totalPages] of its source document — here after a prefix of entries that
all pass the checks and some in-range pages of the same entry — it fails
with the error naming the pdf index, the requested page and the actual
total; the result is an `Except.error` (no output bytes, partial output
discarded) and is the same whatever later entries `jl2` follow, so they are
never processed. -/
theorem join_aborts_on_out_of_range (counts : List ℕ) (jl1 jl2 : List JoinItem)
    (item : JoinItem) (p : ℚ) (ps : PageSpec) (total : ℕ) (pgs1 pgs2 : List ℚ)
    (bad : ℚ) (h1 : ∀ it ∈ jl1, itemChecks counts it = true)
    (hb : item.blank = false) (hpdf : item.pdf = some p) (hpos : ¬p < 0)
    (hpg : item.page = some ps) (hq : qIdx counts p = some total)
    (hps : parsePages ps = .ok (pgs1 ++ bad :: pgs2))
    (hgood : ∀ pn ∈ pgs1, 1 ≤ pn ∧ pn ≤ (total : ℚ))
    (hbad : bad < 1 ∨ bad > (total : ℚ)) :
    join counts (jl1 ++ item :: jl2) = .error (joinPageErr p bad total) := by
  unfold join
  rw [joinGo_append counts jl1 (item :: jl2) [] h1, joinGo, if_neg (by simp [hb])]
  simp only [hpdf, if_neg hpos, hpg, hq, hps]
  rw [copyLoop_err p total bad pgs2 hbad pgs1 _ hgood]

/-- Witness for C3: on sources [12, 7], a valid first entry followed by
{pdf:0, page:"11-13"} aborts at page 13 with the exact error, even though a
further valid entry follows. -/
theorem join_aborts_on_out_of_range_witness :
    join [12, 7]
      [⟨none, none, true⟩,
       ⟨some 0, some (.str "11-13"), false⟩,
       ⟨some 1, some (.num 1), false⟩]
      = .error (joinPageErr 0 13 12) :=
  join_aborts_on_out_of_range [12, 7] [⟨none, none, true⟩]
    [⟨some 1, some (.num 1), false⟩] ⟨some 0, some (.str "11-13"), false⟩
    0 (.str "11-13") 12 [11, 12] [] 13
    (by decide) rfl rfl (by norm_num) rfl rfl rfl
    (by intro pn hpn; fin_cases hpn <;> norm_num) (by norm_num)

/-- Claim C5: the validator's usage histograms start empty; during the
per-page loop of an entry, an out-of-range resolved page number appends
exactly one "no page" error and processing continues with the remaining
page numbers, while an in-range page number (document index `d` in range)
increments the stored count for page `pn` of document `d` by exactly 1 and
appends no error. -/
theorem testList_usage_histogram :
    (∀ info : List PdfInfo, ∀ u ∈ (testInit info).usage, u.usedPages = []) ∧
    (∀ (i : ℕ) (p : ℚ) (total : ℕ) (pn : ℚ) (rest : List ℚ) (st : TestResult),
      (pn < 1 ∨ pn > (total : ℚ)) →
      pagesLoop i p total (pn :: rest) st
        = pagesLoop i p total rest ⟨st.errors ++ [noPageMsg i p pn total], st.usage⟩) ∧
    (∀ (i : ℕ) (d : ℕ) (total : ℕ) (pn : ℚ) (rest : List ℚ) (st : TestResult),
      ¬(pn < 1 ∨ pn > (total : ℚ)) → (hd : d < st.usage.length) →
      ∃ us, updateUsageAt st.usage (d : ℚ) pn = some us ∧
        pagesLoop i (d : ℚ) total (pn :: rest) st
          = pagesLoop i (d : ℚ) total rest ⟨st.errors, us⟩ ∧
        usageCount us d pn = usageCount st.usage d pn + 1) := by
  refine ⟨?_, ?_, ?_⟩
  · intro info u hu
    simp only [testInit] at hu
    obtain ⟨pi, _, hpi⟩ := List.mem_map.mp hu
    rw [← hpi]
  · intro i p total pn rest st hcond
    rw [pagesLoop, if_pos hcond]
  · intro i d total pn rest st hcond hd
    have hh : ((d : ℚ)).den = 1 ∧ 0 ≤ ((d : ℚ)).num ∧ ((d : ℚ)).num.toNat < st.usage.length := by
      refine ⟨Rat.den_natCast d, ?_, ?_⟩
      · rw [Rat.num_natCast]
        positivity
      · rw [Rat.num_natCast, Int.toNat_natCast]
        exact hd
    have hupd : updateUsageAt st.usage (d : ℚ) pn
        = some (st.usage.set d
            { st.usage.get ⟨d, hd⟩ with
              usedPages := bumpCount pn (st.usage.get ⟨d, hd⟩).usedPages }) := by
      unfold updateUsageAt
      rw [dif_pos hh]
      congr 1
    refine ⟨_, hupd, ?_, ?_⟩
    · rw [pagesLoop, if_neg hcond, hupd]
    · exact usageCount_set_bump st.usage d pn hd

/-- Witness for C5: instantiating all three parts — empty initial
histograms for one source; the out-of-range step for page 99 of a 12-page
document; and the in-range step for page 2, whose count goes from 0 to 1. -/
theorem testList_usage_histogram_witness :
    (∀ u ∈ (testInit [⟨"a.pdf", 12⟩]).usage, u.usedPages = []) ∧
    pagesLoop 0 0 12 [99] ⟨[], [⟨"a.pdf", 12, []⟩]⟩
      = pagesLoop 0 0 12 [] ⟨[noPageMsg 0 0 99 12], [⟨"a.pdf", 12, []⟩]⟩ ∧
    ∃ us, updateUsageAt [⟨"a.pdf", 12, []⟩] ((0 : ℕ) : ℚ) 2 = some us ∧
      pagesLoop 0 ((0 : ℕ) : ℚ) 12 [2] ⟨[], [⟨"a.pdf", 12, []⟩]⟩
        = pagesLoop 0 ((0 : ℕ) : ℚ) 12 [] ⟨[], us⟩ ∧
      usageCount us 0 2 = usageCount [⟨"a.pdf", 12, []⟩] 0 2 + 1 :=
  ⟨testList_usage_histogram.1 [⟨"a.pdf", 12⟩],
   testList_usage_histogram.2.1 0 0 12 99 [] ⟨[], [⟨"a.pdf", 12, []⟩]⟩ (by norm_num),
   testList_usage_histogram.2.2 0 0 12 2 [] ⟨[], [⟨"a.pdf", 12, []⟩]⟩ (by norm_num)
     (by norm_num)⟩

/-- Claim C4: `parsePages` on a positive integer returns the singleton
sequence; on a range string "a-b" (digit strings d1, d2 with values a, b) it
returns the ascending inclusive sequence `[a, a+1, ..., b]` when a ≤ b, and
fails with the invalid-range (`InvalidPageSpec`) error when a > b. -/
theorem parsePages_range_spec :
    (∀ n : ℕ, 0 < n → parsePages (.num n) = .ok [(n : ℚ)]) ∧
    (∀ d1 d2 : List Char, d1 ≠ [] → d2 ≠ [] →
      (∀ c ∈ d1, c.isDigit = true) → (∀ c ∈ d2, c.isDigit = true) →
      (parseIntDigits d1 ≤ parseIntDigits d2 →
        parsePages (.str (String.mk (d1 ++ '-' :: d2)))
          = .ok ((List.range' (parseIntDigits d1)
              (parseIntDigits d2 + 1 - parseIntDigits d1)).map (fun p => (p : ℚ)))) ∧
      (parseIntDigits d1 > parseIntDigits d2 →
        parsePages (.str (String.mk (d1 ++ '-' :: d2)))
          = .error (rangeOrderErr (String.mk (d1 ++ '-' :: d2))))) := by
  constructor
  · intro n _
    rfl
  · intro d1 d2 h1 h2 hd1 hd2
    have hws : ∀ c ∈ d1 ++ '-' :: d2, c.isWhitespace = false := by
      intro c hc
      rcases List.mem_append.mp hc with h | h
      · exact digit_not_ws (hd1 c h)
      · rcases List.mem_cons.mp h with h | h
        · subst h; decide
        · exact digit_not_ws (hd2 c h)
    have hmatch : matchRangeRe (jsTrim (String.mk (d1 ++ '-' :: d2)).toList)
        = some (d1, d2) := by
      have htl : (String.mk (d1 ++ '-' :: d2)).toList = d1 ++ '-' :: d2 := rfl
      rw [htl, jsTrim_eq_self _ hws]
      exact matchRangeRe_digits d1 d2 h1 h2 hd1 hd2
    constructor
    · intro hle
      simp only [parsePages]
      rw [hmatch]
      simp only [gt_iff_lt, if_neg (not_lt.mpr hle)]
    · intro hgt
      simp only [parsePages]
      rw [hmatch]
      simp only [gt_iff_lt, if_pos hgt]

/-- Witness for C4: `parsePages(3) = [3]`, `parsePages("2-5") = [2,3,4,5]`
and `parsePages("5-2")` fails with the start>end error. -/
theorem parsePages_range_spec_witness :
    parsePages (.num ((3 : ℕ) : ℚ)) = .ok [((3 : ℕ) : ℚ)] ∧
    parsePages (.str (String.mk (['2'] ++ '-' :: ['5']))) = .ok [2, 3, 4, 5] ∧
    parsePages (.str (String.mk (['5'] ++ '-' :: ['2'])))
      = .error (rangeOrderErr (String.mk (['5'] ++ '-' :: ['2']))) :=
  ⟨parsePages_range_spec.1 3 (by norm_num),
   ((parsePages_range_spec.2 ['2'] ['5'] (by decide) (by decide) (by decide)
      (by decide)).1 (by decide)).trans rfl,
   (parsePages_range_spec.2 ['5'] ['2'] (by decide) (by decide) (by decide)
      (by decide)).2 (by decide)⟩

/-- Claim C8: the inline --pages decoder splits on commas and trims each
token; an empty token or case-insensitive "blank" gives a blank item; a
token `digits:digits` gives a page reference with an integer page; a token
`digits:digits-digits` keeps the range string as page; any other token
fails with the error naming the token verbatim and the accepted shapes; and
decoded items appear in left-to-right token order. -/
theorem parsePagesArg_spec :
    (∀ arg : String,
      parsePagesArg arg = tokensGo ((arg.splitOn ",").map String.trim)) ∧
    (∀ t : String, t.toList = [] ∨ t.toList.map Char.toLower = "blank".toList →
      decodeToken t = .ok ⟨none, none, true⟩) ∧
    (∀ d1 d2 : List Char, d1 ≠ [] → d2 ≠ [] →
      (∀ c ∈ d1, c.isDigit = true) → (∀ c ∈ d2, c.isDigit = true) →
      decodeToken (String.mk (d1 ++ ':' :: d2))
        = .ok ⟨some ((parseIntDigits d1 : ℕ) : ℚ),
            some (.num ((parseIntDigits d2 : ℕ) : ℚ)), false⟩) ∧
    (∀ d1 d2 d3 : List Char, d1 ≠ [] → d2 ≠ [] → d3 ≠ [] →
      (∀ c ∈ d1, c.isDigit = true) → (∀ c ∈ d2, c.isDigit = true) →
      (∀ c ∈ d3, c.isDigit = true) →
      decodeToken (String.mk (d1 ++ ':' :: (d2 ++ '-' :: d3)))
        = .ok ⟨some ((parseIntDigits d1 : ℕ) : ℚ),
            some (.str (String.mk (d2 ++ '-' :: d3))), false⟩) ∧
    (∀ t : String, ¬(t.toList = [] ∨ t.toList.map Char.toLower = "blank".toList) →
      matchTokenRe t.toList = none → decodeToken t = .error (invalidTokenMsg t)) ∧
    (∀ (t : String) (rest : List String) (item : JoinItem),
      decodeToken t = .ok item →
      tokensGo (t :: rest) = Except.map (fun items => item :: items) (tokensGo rest)) := by
  refine ⟨fun _ => rfl, ?_, ?_, ?_, ?_, ?_⟩
  · intro t h
    unfold decodeToken
    rw [if_pos h]
  · intro d1 d2 h1 h2 hd1 hd2
    have hcond : ¬((String.mk (d1 ++ ':' :: d2)).toList = []
        ∨ (String.mk (d1 ++ ':' :: d2)).toList.map Char.toLower = "blank".toList) := by
      rintro (h | h)
      · simp at h
      · have hmem : ':' ∈ (d1 ++ ':' :: d2).map Char.toLower :=
          List.mem_map.mpr ⟨':', by simp, by decide⟩
        rw [show (String.mk (d1 ++ ':' :: d2)).toList = d1 ++ ':' :: d2 from rfl] at h
        rw [h] at hmem
        exact absurd hmem (by decide)
    have hnm : '-' ∉ d2 := fun hm => absurd (hd2 '-' hm) (by decide)
    unfold decodeToken
    rw [if_neg hcond,
      show (String.mk (d1 ++ ':' :: d2)).toList = d1 ++ ':' :: d2 from rfl,
      matchTokenRe_single d1 d2 h1 h2 hd1 hd2]
    simp [hnm]
  · intro d1 d2 d3 h1 h2 h3 hd1 hd2 hd3
    have hcond : ¬((String.mk (d1 ++ ':' :: (d2 ++ '-' :: d3))).toList = []
        ∨ (String.mk (d1 ++ ':' :: (d2 ++ '-' :: d3))).toList.map Char.toLower
            = "blank".toList) := by
      rintro (h | h)
      · simp at h
      · have hmem : ':' ∈ (d1 ++ ':' :: (d2 ++ '-' :: d3)).map Char.toLower :=
          List.mem_map.mpr ⟨':', by simp, by decide⟩
        rw [show (String.mk (d1 ++ ':' :: (d2 ++ '-' :: d3))).toList
            = d1 ++ ':' :: (d2 ++ '-' :: d3) from rfl] at h
        rw [h] at hmem
        exact absurd hmem (by decide)
    have hc : (d2 ++ '-' :: d3).contains '-' = true :=
      List.elem_iff.mpr (by simp)
    unfold decodeToken
    rw [if_neg hcond,
      show (String.mk (d1 ++ ':' :: (d2 ++ '-' :: d3))).toList
          = d1 ++ ':' :: (d2 ++ '-' :: d3) from rfl,
      matchTokenRe_range d1 d2 d3 h1 h2 h3 hd1 hd2 hd3]
    simp [hc]
  · intro t h hmatch
    unfold decodeToken
    rw [if_neg h, hmatch]
  · intro t rest item h
    rw [tokensGo, h]
    cases htg : tokensGo rest with
    | error e => simp [Except.map]
    | ok items => simp [Except.map]

/-- Witness for C8: the spec's example tokens — "12:3" decodes to a page
reference with integer page, "1:2-4" keeps the range string, "BLANK" (any
case) and "" give blank items, "0:x" fails verbatim, and decoding keeps
token order. -/
theorem parsePagesArg_spec_witness :
    decodeToken (String.mk (['1', '2'] ++ ':' :: ['3']))
      = .ok ⟨some ((parseIntDigits ['1', '2'] : ℕ) : ℚ),
          some (.num ((parseIntDigits ['3'] : ℕ) : ℚ)), false⟩ ∧
    decodeToken (String.mk (['1'] ++ ':' :: (['2'] ++ '-' :: ['4'])))
      = .ok ⟨some ((parseIntDigits ['1'] : ℕ) : ℚ),
          some (.str (String.mk (['2'] ++ '-' :: ['4']))), false⟩ ∧
    decodeToken "BLANK" = .ok ⟨none, none, true⟩ ∧
    decodeToken "" = .ok ⟨none, none, true⟩ ∧
    decodeToken "0:x" = .error (invalidTokenMsg "0:x") ∧
    tokensGo ["", "0:1"]
      = Except.map (fun items => JoinItem.mk none none true :: items) (tokensGo ["0:1"]) :=
  ⟨parsePagesArg_spec.2.2.1 ['1', '2'] ['3'] (by decide) (by decide) (by decide) (by decide),
   parsePagesArg_spec.2.2.2.1 ['1'] ['2'] ['4'] (by decide) (by decide) (by decide)
     (by decide) (by decide) (by decide),
   parsePagesArg_spec.2.1 "BLANK" (Or.inr (by decide)),
   parsePagesArg_spec.2.1 "" (Or.inl (by decide)),
   parsePagesArg_spec.2.2.2.2.1 "0:x" (by decide) (by decide),
   parsePagesArg_spec.2.2.2.2.2 "" ["0:1"] ⟨none, none, true⟩
     (parsePagesArg_spec.2.1 "" (Or.inl (by decide)))⟩

end JoinPdf
